import Mathlib

/-!
Formal model of the coin volume tracker.

The repository ships two versions of the dashboard script:

* `streamlit-app.py` ("Combined" below): fetches Upbit and Bithumb tickers,
  normalizes both into one record shape, computes the volume change rate
  exactly, aggregates the two exchanges, sorts by absolute change rate, and
  filters by exchange / minimum volume / minimum absolute change rate.
* `streamlit_app.py` ("Candle" below): Upbit only; the baseline is the
  previous calendar day's volume taken from the per-market daily candle
  endpoint; volumes are truncated to integers with `int()` and the change
  rate is rounded to one decimal with `round(_, 1)`; three sort keys are
  offered and the chart takes the first ten records of the sorted table.

Network responses are modelled as explicit `Except`/function parameters:
an `Except.error` value stands for a request or JSON-decoding failure that
would be caught by the surrounding `try/except`.  Exact rationals stand in
for Python floats; Python's `int`, `round` and `str.startswith` are given
explicit rational models below.
-/

namespace CoinTracker

/-- Python `int()` applied to an exact rational: truncation toward zero.
`Int.tdiv` is T-division, which truncates the quotient toward zero, exactly
like Python's `int()` on a non-negative or negative number. -/
def pyInt (q : ℚ) : ℤ := Int.tdiv q.num q.den

/-- Floor of a rational, computed on the numerator and denominator so that it
evaluates by kernel reduction (the denominator is positive, so Euclidean
division of `num` by `den` is flooring division). -/
def ratFloor (q : ℚ) : ℤ := q.num / q.den

/-- Python `round()` to the nearest integer with ties to even (banker's
rounding), modelled on exact rationals. -/
def rndHalfEven (q : ℚ) : ℤ :=
  let f := ratFloor q
  if q - f < 1/2 then f
  else if 1/2 < q - f then f + 1
  else if f % 2 = 0 then f else f + 1

/-- Python `round(q, 1)`: round to one decimal place, ties to even. -/
def pyRound1 (q : ℚ) : ℚ := (rndHalfEven (q * 10) : ℚ) / 10

/-- Python `s.startswith(p)`. -/
def pyStartswith (s p : String) : Bool := s.data.take p.data.length == p.data

/-- The two exchanges the combined version polls. -/
inductive Exchange
  | upbit
  | bithumb
deriving DecidableEq

/-- One entry of the Upbit market-list response; only the `market` field and
the optional `korean_name` field are read by the scripts. -/
structure MarketInfo where
  market : String
  korean_name : Option String
deriving DecidableEq

namespace Combined

/-- One Upbit ticker object as used by `get_upbit_volume_data` in
`streamlit-app.py`; all accessed fields are required there (a missing field
would raise and abort the whole batch, i.e. the `Except.error` case of the
response). -/
structure UpbitTicker where
  market : String
  acc_trade_volume_24h : ℚ
  acc_trade_volume : ℚ
  trade_price : ℚ
  signed_change_rate : ℚ
  timestamp : ℚ
deriving DecidableEq

/-- The common record shape built by both normalizers of `streamlit-app.py`. -/
structure VolumeRecord where
  exchange : Exchange
  market : String
  korean_name : String
  trade_volume : ℚ
  trade_volume_prev : ℚ
  trade_price : ℚ
  signed_change_rate : ℚ
  volume_change_rate : ℚ
  timestamp : ℚ
deriving DecidableEq

/-- `get_upbit_market_codes` of `streamlit-app.py` (the comprehension on its
line 21 is byte-identical in `streamlit_app.py` line 20): keep the markets
whose id starts with `"KRW-"`; on a fetch/decoding error return `[]`. -/
def get_upbit_market_codes (resp : Except String (List MarketInfo)) : List String :=
  match resp with
  | .error _ => []
  | .ok markets => (markets.filter fun m => pyStartswith m.market "KRW-").map fun m => m.market

/-- The per-ticker body of the loop in `get_upbit_volume_data`
(`streamlit-app.py` lines 42-61): field mapping plus the change-rate guard. -/
def mkUpbitData (t : UpbitTicker) : VolumeRecord :=
  let volume_change_rate :=
    if 0 < t.acc_trade_volume then
      ((t.acc_trade_volume_24h - t.acc_trade_volume) / t.acc_trade_volume) * 100
    else 0
  { exchange := .upbit
    market := t.market
    korean_name := t.market.replace "KRW-" ""
    trade_volume := t.acc_trade_volume_24h
    trade_volume_prev := t.acc_trade_volume
    trade_price := t.trade_price
    signed_change_rate := t.signed_change_rate * 100
    volume_change_rate := volume_change_rate
    timestamp := t.timestamp / 1000 }

/-- `get_upbit_volume_data` of `streamlit-app.py`: the `resp` parameter is the
concatenation of the chunked ticker responses; any failure inside the fetch
loop is the `Except.error` case and yields `[]`. -/
def get_upbit_volume_data (resp : Except String (List UpbitTicker)) : List VolumeRecord :=
  match resp with
  | .error _ => []
  | .ok tickers => tickers.map mkUpbitData

/-- One Bithumb per-coin ticker; fields are `Option` values because the script
reads them with `float(ticker[...])`, which raises (and skips the coin) when
the field is missing or not numeric — modelled by `none`. -/
structure BithumbTicker where
  volume_1day : Option ℚ
  volume_7day : Option ℚ
  closing_price : Option ℚ
  fluctate_rate_24H : Option ℚ
deriving DecidableEq

/-- The decoded Bithumb `ALL_KRW` response: a status code, a message and the
per-coin entries of the `data` object in their original order. -/
structure BithumbResp where
  status : String
  message : String
  data : List (String × BithumbTicker)
deriving DecidableEq

/-- The `try` body of the per-coin loop in `get_bithumb_volume_data`
(`streamlit-app.py` lines 84-105); `none` is the `except`-and-`continue`
branch. -/
def mkBithumbData (coin : String) (t : BithumbTicker) (now : ℚ) : Option VolumeRecord :=
  match t.volume_1day, t.volume_7day, t.closing_price, t.fluctate_rate_24H with
  | some v1, some v7, some cp, some fr =>
    let trade_volume_prev := v7 / 7
    let volume_change_rate :=
      if 0 < trade_volume_prev then ((v1 - trade_volume_prev) / trade_volume_prev) * 100
      else 0
    some { exchange := .bithumb
           market := "KRW-" ++ coin
           korean_name := coin
           trade_volume := v1
           trade_volume_prev := trade_volume_prev
           trade_price := cp
           signed_change_rate := fr
           volume_change_rate := volume_change_rate
           timestamp := now }
  | _, _, _, _ => none

/-- `get_bithumb_volume_data` of `streamlit-app.py`: error or non-`"0000"`
status gives `[]`; otherwise each coin except the `date` entry is normalized,
skipping the coins whose fields fail to parse. -/
def get_bithumb_volume_data (resp : Except String BithumbResp) (now : ℚ) : List VolumeRecord :=
  match resp with
  | .error _ => []
  | .ok d =>
    if d.status ≠ "0000" then []
    else d.data.filterMap fun p => if p.1 = "date" then none else mkBithumbData p.1 p.2 now

/-- The comparison realised by `sorted(_, key=lambda x: abs(x['volume_change_rate']),
reverse=True)`: a stable descending sort on the absolute change rate. -/
def absDescLe (a b : VolumeRecord) : Bool :=
  decide (|b.volume_change_rate| ≤ |a.volume_change_rate|)

/-- Line 121 of `streamlit-app.py`: `combined_data = upbit_data + bithumb_data`. -/
def aggregate (u b : List VolumeRecord) : List VolumeRecord := u ++ b

/-- `get_combined_volume_data`: concatenate the two exchanges' records and sort
by absolute change rate descending (`mergeSort` with `absDescLe` is the stable
descending sort CPython's `sorted(..., reverse=True)` performs). -/
def get_combined_volume_data (uresp : Except String (List UpbitTicker))
    (bresp : Except String BithumbResp) (now : ℚ) : List VolumeRecord :=
  (aggregate (get_upbit_volume_data uresp) (get_bithumb_volume_data bresp now)).mergeSort absDescLe

/-- The three widget values feeding the filter comprehension. -/
structure FilterSpec where
  exchange_filter : List Exchange
  min_volume : ℚ
  min_change_rate : ℚ

/-- The conjunction guarding the comprehension on lines 168-173 of
`streamlit-app.py`. -/
def filterPred (f : FilterSpec) (r : VolumeRecord) : Bool :=
  decide (r.exchange ∈ f.exchange_filter) &&
  decide (f.min_volume ≤ r.trade_volume) &&
  decide (f.min_change_rate ≤ |r.volume_change_rate|)

/-- `filtered_data` of `streamlit-app.py`: list-comprehension filtering. -/
def filtered_data (f : FilterSpec) (data : List VolumeRecord) : List VolumeRecord :=
  data.filter (filterPred f)

/-- `top10 = filtered_data[:10]` (line 183 of `streamlit-app.py`). -/
def top10 (f : FilterSpec) (data : List VolumeRecord) : List VolumeRecord :=
  (filtered_data f data).take 10

end Combined

namespace Candle

/-- One daily candle of the Upbit candle endpoint; only
`candle_acc_trade_volume` of the first candle is read. -/
structure DayCandle where
  candle_acc_trade_volume : ℚ
deriving DecidableEq

/-- `get_yesterday_volume` of `streamlit_app.py` (lines 31-54): a failed or
empty candle response degrades the baseline to `0`. -/
def get_yesterday_volume (resp : Except String (List DayCandle)) : ℚ :=
  match resp with
  | .error _ => 0
  | .ok [] => 0
  | .ok (c :: _) => c.candle_acc_trade_volume

/-- One Upbit ticker as read by the candle version; every field is accessed
with `ticker.get(key, default)`, so missing fields (`none`) fall back to a
default instead of raising. -/
structure CandleTicker where
  market : Option String
  acc_trade_volume_24h : Option ℚ
  trade_price : Option ℚ
  signed_change_rate : Option ℚ
deriving DecidableEq

/-- The record shape built by the candle version (`streamlit_app.py` lines
96-106): volumes are integers because the script truncates them with `int()`. -/
structure CandleRecord where
  exchange : Exchange
  market : String
  korean_name : String
  today_volume : ℤ
  yesterday_volume : ℤ
  trade_price : ℚ
  signed_change_rate : ℚ
  volume_change_rate : ℚ
  timestamp : ℚ
deriving DecidableEq

/-- The per-ticker `try` body of `get_upbit_volume_data` in `streamlit_app.py`
(lines 76-108): truncate both volumes with `int()`, guard the division, round
the rate to one decimal.  `market_names` models the `market_names` dict
(`dict.get` with the `replace` fallback), `yresp` the candle response for this
market. -/
def mkCandleData (t : CandleTicker) (yresp : Except String (List DayCandle))
    (market_names : String → Option String) (now : ℚ) : CandleRecord :=
  let market := t.market.getD ""
  let today_volume := pyInt (t.acc_trade_volume_24h.getD 0)
  let yesterday_volume := pyInt (get_yesterday_volume yresp)
  let volume_change_rate :=
    if 0 < yesterday_volume then
      pyRound1 (((today_volume : ℚ) - (yesterday_volume : ℚ)) / (yesterday_volume : ℚ) * 100)
    else 0
  { exchange := .upbit
    market := market
    korean_name := (market_names market).getD (market.replace "KRW-" "")
    today_volume := today_volume
    yesterday_volume := yesterday_volume
    trade_price := t.trade_price.getD 0
    signed_change_rate := t.signed_change_rate.getD 0 * 100
    volume_change_rate := volume_change_rate
    timestamp := now }

/-- One raw Upbit ticker before the per-ticker `try` body runs.  The 24h
volume field is the one the body converts with `int(...)`: its raw value is
either absent (outer `none`, so `.get` falls back to `0`), a numeric value
(`some (some q)`), or present but malformed (`some none`) — a value `int()`
cannot convert, which raises inside the `try` and skips this asset.  The
remaining fields are only read with `.get(key, default)` and cannot raise. -/
structure RawCandleTicker where
  market : Option String
  acc_trade_volume_24h : Option (Option ℚ)
  trade_price : Option ℚ
  signed_change_rate : Option ℚ
deriving DecidableEq

/-- The fallible prefix of the per-ticker `try` body (`streamlit_app.py`
lines 76-111): `none` is the `except`-and-`continue` branch taken when the
present 24h-volume value is malformed; otherwise the well-typed ticker that
the rest of the body (`mkCandleData`) consumes. -/
def parseCandleTicker (t : RawCandleTicker) : Option CandleTicker :=
  match t.acc_trade_volume_24h with
  | some none => none
  | some (some q) => some ⟨t.market, some q, t.trade_price, t.signed_change_rate⟩
  | none => some ⟨t.market, none, t.trade_price, t.signed_change_rate⟩

/-- `get_upbit_volume_data` of `streamlit_app.py`: the raw ticker batch plus,
per market id, the candle response used for the baseline.  Each ticker runs
through the per-ticker `try/except` (lines 76-111): a malformed ticker is
dropped (`parseCandleTicker` returns `none`), every other ticker yields one
record. -/
def get_upbit_volume_data (resp : Except String (List RawCandleTicker))
    (ydata : String → Except String (List DayCandle))
    (market_names : String → Option String) (now : ℚ) : List CandleRecord :=
  match resp with
  | .error _ => []
  | .ok tickers => tickers.filterMap fun t =>
      (parseCandleTicker t).map fun c => mkCandleData c (ydata (c.market.getD "")) market_names now

/-- The two widget values feeding the candle version's filter. -/
structure FilterSpec where
  min_volume : ℤ
  min_change_rate : ℚ

/-- The conjunction guarding the comprehension on lines 159-163 of
`streamlit_app.py`. -/
def filterPred (f : FilterSpec) (r : CandleRecord) : Bool :=
  decide (f.min_volume ≤ r.today_volume) &&
  decide (f.min_change_rate ≤ |r.volume_change_rate|)

/-- `filtered_data` of `streamlit_app.py`. -/
def filtered_data (f : FilterSpec) (xs : List CandleRecord) : List CandleRecord :=
  xs.filter (filterPred f)

/-- The three entries of the sort-order selectbox. -/
inductive SortKey
  | absRate
  | posFirst
  | todayVol
deriving DecidableEq

/-- Stable descending comparison on `abs(volume_change_rate)`. -/
def absDescLe (a b : CandleRecord) : Bool :=
  decide (|b.volume_change_rate| ≤ |a.volume_change_rate|)

/-- First component of the key tuple of the positive-first sort:
`-1 if x['volume_change_rate'] > 0 else 1`. -/
def signedKeyFst (r : CandleRecord) : ℤ := if 0 < r.volume_change_rate then -1 else 1

/-- Lexicographic comparison of the key tuples
`(-1 if rate > 0 else 1, -abs(rate))` (line 169 of `streamlit_app.py`). -/
def signedLe (a b : CandleRecord) : Bool :=
  decide (signedKeyFst a < signedKeyFst b ∨
    (signedKeyFst a = signedKeyFst b ∧
      -|a.volume_change_rate| ≤ -|b.volume_change_rate|))

/-- Stable descending comparison on `today_volume`. -/
def volDescLe (a b : CandleRecord) : Bool := decide (b.today_volume ≤ a.today_volume)

/-- The `sorted_data` dispatch on lines 166-171 of `streamlit_app.py`. -/
def sorted_data (k : SortKey) (xs : List CandleRecord) : List CandleRecord :=
  match k with
  | .absRate => xs.mergeSort absDescLe
  | .posFirst => xs.mergeSort signedLe
  | .todayVol => xs.mergeSort volDescLe

/-- Line 182 of `streamlit_app.py`:
`top10 = sorted(sorted_data[:10], key=lambda x: abs(x['volume_change_rate']), reverse=True)`. -/
def top10 (k : SortKey) (xs : List CandleRecord) : List CandleRecord :=
  ((sorted_data k xs).take 10).mergeSort absDescLe

end Candle

/-! Transitivity and totality of the sort comparisons, as `mergeSort` needs
them. -/

theorem absDescLe_trans (a b c : Combined.VolumeRecord) :
    Combined.absDescLe a b = true → Combined.absDescLe b c = true →
      Combined.absDescLe a c = true := by
  simp only [Combined.absDescLe, decide_eq_true_eq]
  exact fun h1 h2 => le_trans h2 h1

theorem absDescLe_total (a b : Combined.VolumeRecord) :
    (Combined.absDescLe a b || Combined.absDescLe b a) = true := by
  simp only [Combined.absDescLe, Bool.or_eq_true, decide_eq_true_eq]
  exact le_total _ _

theorem cAbsDescLe_trans (a b c : Candle.CandleRecord) :
    Candle.absDescLe a b = true → Candle.absDescLe b c = true →
      Candle.absDescLe a c = true := by
  simp only [Candle.absDescLe, decide_eq_true_eq]
  exact fun h1 h2 => le_trans h2 h1

theorem cAbsDescLe_total (a b : Candle.CandleRecord) :
    (Candle.absDescLe a b || Candle.absDescLe b a) = true := by
  simp only [Candle.absDescLe, Bool.or_eq_true, decide_eq_true_eq]
  exact le_total _ _

theorem signedLe_trans (a b c : Candle.CandleRecord) :
    Candle.signedLe a b = true → Candle.signedLe b c = true →
      Candle.signedLe a c = true := by
  simp only [Candle.signedLe, decide_eq_true_eq]
  rintro (h1 | ⟨h1, h1'⟩) (h2 | ⟨h2, h2'⟩)
  · exact Or.inl (lt_trans h1 h2)
  · exact Or.inl (h2 ▸ h1)
  · exact Or.inl (h1 ▸ h2)
  · exact Or.inr ⟨h1.trans h2, le_trans h1' h2'⟩

theorem signedLe_total (a b : Candle.CandleRecord) :
    (Candle.signedLe a b || Candle.signedLe b a) = true := by
  simp only [Candle.signedLe, Bool.or_eq_true, decide_eq_true_eq]
  rcases lt_trichotomy (Candle.signedKeyFst a) (Candle.signedKeyFst b) with h | h | h
  · exact Or.inl (Or.inl h)
  · rcases le_total (-|a.volume_change_rate|) (-|b.volume_change_rate|) with h' | h'
    · exact Or.inl (Or.inr ⟨h, h'⟩)
    · exact Or.inr (Or.inr ⟨h.symm, h'⟩)
  · exact Or.inr (Or.inl h)

theorem volDescLe_trans (a b c : Candle.CandleRecord) :
    Candle.volDescLe a b = true → Candle.volDescLe b c = true →
      Candle.volDescLe a c = true := by
  simp only [Candle.volDescLe, decide_eq_true_eq]
  exact fun h1 h2 => le_trans h2 h1

theorem volDescLe_total (a b : Candle.CandleRecord) :
    (Candle.volDescLe a b || Candle.volDescLe b a) = true := by
  simp only [Candle.volDescLe, Bool.or_eq_true, decide_eq_true_eq]
  exact le_total _ _

/-- C3: in `streamlit-app.py`, a record appears in `filtered_data` iff it is in
the input, its exchange is selected, its current volume is at least
`min_volume` and the absolute change rate is at least `min_change_rate`; the
surviving records keep their relative order (the output is a sublist of the
input). -/
theorem C3_filter_pure_conjunction (f : Combined.FilterSpec)
    (data : List Combined.VolumeRecord) :
    (∀ r : Combined.VolumeRecord,
        r ∈ Combined.filtered_data f data ↔
          r ∈ data ∧ r.exchange ∈ f.exchange_filter ∧
            f.min_volume ≤ r.trade_volume ∧
            f.min_change_rate ≤ |r.volume_change_rate|) ∧
    (Combined.filtered_data f data).Sublist data := by
  constructor
  · intro r
    simp [Combined.filtered_data, Combined.filterPred, List.mem_filter, and_assoc]
  · exact List.filter_sublist data

/-- C3 instantiated at a concrete record and filter. -/
theorem C3_filter_pure_conjunction_witness :
    (∀ r : Combined.VolumeRecord,
        r ∈ Combined.filtered_data ⟨[Exchange.upbit], 0, 0⟩
            [⟨Exchange.upbit, "KRW-BTC", "BTC", 5, 4, 1, 0, 25, 0⟩] ↔
          r ∈ [(⟨Exchange.upbit, "KRW-BTC", "BTC", 5, 4, 1, 0, 25, 0⟩ :
              Combined.VolumeRecord)] ∧
            r.exchange ∈ [Exchange.upbit] ∧ (0 : ℚ) ≤ r.trade_volume ∧
            (0 : ℚ) ≤ |r.volume_change_rate|) ∧
    (Combined.filtered_data ⟨[Exchange.upbit], 0, 0⟩
        [⟨Exchange.upbit, "KRW-BTC", "BTC", 5, 4, 1, 0, 25, 0⟩]).Sublist
      [⟨Exchange.upbit, "KRW-BTC", "BTC", 5, 4, 1, 0, 25, 0⟩] :=
  C3_filter_pure_conjunction ⟨[Exchange.upbit], 0, 0⟩
    [⟨Exchange.upbit, "KRW-BTC", "BTC", 5, 4, 1, 0, 25, 0⟩]

/-- C4: a failed bulk fetch (the `Except.error` case) makes that exchange
contribute `[]`; the concatenation then equals the other exchange's records
exactly, and the returned (sorted) sequence is a permutation of them.  Both
directions are stated; all functions are total, so no failure escapes. -/
theorem C4_batch_failure_isolated (e e' : String)
    (uresp : Except String (List Combined.UpbitTicker))
    (bresp : Except String Combined.BithumbResp) (now : ℚ) :
    Combined.get_upbit_volume_data (.error e) = [] ∧
    Combined.aggregate (Combined.get_upbit_volume_data (.error e))
        (Combined.get_bithumb_volume_data bresp now)
      = Combined.get_bithumb_volume_data bresp now ∧
    (Combined.get_combined_volume_data (.error e) bresp now).Perm
      (Combined.get_bithumb_volume_data bresp now) ∧
    Combined.get_bithumb_volume_data (.error e') now = [] ∧
    Combined.aggregate (Combined.get_upbit_volume_data uresp)
        (Combined.get_bithumb_volume_data (.error e') now)
      = Combined.get_upbit_volume_data uresp ∧
    (Combined.get_combined_volume_data uresp (.error e') now).Perm
      (Combined.get_upbit_volume_data uresp) := by
  refine ⟨rfl, rfl, ?_, rfl, ?_, ?_⟩
  · simpa [Combined.get_combined_volume_data, Combined.aggregate,
      Combined.get_upbit_volume_data] using
      List.mergeSort_perm (Combined.get_bithumb_volume_data bresp now) Combined.absDescLe
  · simp [Combined.aggregate, Combined.get_bithumb_volume_data]
  · simpa [Combined.get_combined_volume_data, Combined.aggregate,
      Combined.get_bithumb_volume_data] using
      List.mergeSort_perm (Combined.get_upbit_volume_data uresp) Combined.absDescLe

/-- C7: the stable descending sort on the absolute change rate is idempotent,
in both versions of the script. -/
theorem C7_abs_sort_idempotent :
    (∀ xs : List Combined.VolumeRecord,
        (xs.mergeSort Combined.absDescLe).mergeSort Combined.absDescLe
          = xs.mergeSort Combined.absDescLe) ∧
    (∀ ys : List Candle.CandleRecord,
        Candle.sorted_data .absRate (Candle.sorted_data .absRate ys)
          = Candle.sorted_data .absRate ys) := by
  constructor
  · intro xs
    exact List.mergeSort_of_sorted
      (List.sorted_mergeSort absDescLe_trans absDescLe_total xs)
  · intro ys
    simp only [Candle.sorted_data]
    exact List.mergeSort_of_sorted
      (List.sorted_mergeSort cAbsDescLe_trans cAbsDescLe_total ys)

/-- C8: aggregation is concatenation, hence commutative up to multiset
equality; every record is counted exactly as often as in the two inputs (no
dedup), and two empty inputs give the empty output. -/
theorem C8_aggregate_multiset_comm (u b : List Combined.VolumeRecord) :
    ((Combined.aggregate u b : List Combined.VolumeRecord) : Multiset Combined.VolumeRecord)
        = ((Combined.aggregate b u : List Combined.VolumeRecord) :
            Multiset Combined.VolumeRecord) ∧
    (∀ r : Combined.VolumeRecord,
        (Combined.aggregate u b).count r = u.count r + b.count r) ∧
    Combined.aggregate ([] : List Combined.VolumeRecord) [] = [] := by
  refine ⟨Multiset.coe_eq_coe.mpr List.perm_append_comm, ?_, rfl⟩
  intro r
  exact List.count_append r u b

/-- A concrete ticker for the candle version: 24h volume 1, price 100. -/
def c1Ticker : Candle.CandleTicker := ⟨some "KRW-AAA", some 1, some 100, some (1/100)⟩

/-- The record the candle version builds from `c1Ticker` with yesterday's
candle volume 3. -/
def c1Rec : Candle.CandleRecord :=
  Candle.mkCandleData c1Ticker (.ok [⟨3⟩]) (fun _ => none) 0

/-- C1 counterexample: in the candle version the stored rate is rounded to one
decimal, so with today 1 and yesterday 3 the stored rate (-66.7) is not the
exact percentage ((1-3)/3*100 = -200/3), even though the baseline is
positive. -/
theorem C1_counterexample :
    0 < c1Rec.yesterday_volume ∧
    c1Rec.volume_change_rate ≠
      (((c1Rec.today_volume : ℚ) - (c1Rec.yesterday_volume : ℚ)) /
        (c1Rec.yesterday_volume : ℚ)) * 100 := by
  have hy : c1Rec.yesterday_volume = 3 := by
    simp only [c1Rec, Candle.mkCandleData, c1Ticker, Candle.get_yesterday_volume, pyInt]
    norm_num
  have ht : c1Rec.today_volume = 1 := by
    simp only [c1Rec, Candle.mkCandleData, c1Ticker, Option.getD_some, pyInt]
    norm_num
  have hr : c1Rec.volume_change_rate = -667/10 := by
    simp only [c1Rec, Candle.mkCandleData, c1Ticker, Candle.get_yesterday_volume,
      Option.getD_some, pyInt, pyRound1, rndHalfEven, ratFloor]
    norm_num
  refine ⟨by rw [hy]; norm_num, ?_⟩
  rw [hr, ht, hy]
  norm_num

/-- C1 as amended: every normalizer computes the rate as `0` when its baseline
is not positive (so no division by zero can occur), and otherwise as the
percentage formula — exactly in the two-exchange version, and rounded to one
decimal (Python `round(_, 1)`) in the candle version. -/
theorem C1_rate_formula :
    (∀ t : Combined.UpbitTicker,
      (Combined.mkUpbitData t).volume_change_rate =
        if 0 < (Combined.mkUpbitData t).trade_volume_prev then
          (((Combined.mkUpbitData t).trade_volume -
              (Combined.mkUpbitData t).trade_volume_prev) /
            (Combined.mkUpbitData t).trade_volume_prev) * 100
        else 0) ∧
    (∀ (coin : String) (t : Combined.BithumbTicker) (now : ℚ)
        (r : Combined.VolumeRecord),
      Combined.mkBithumbData coin t now = some r →
        r.volume_change_rate =
          if 0 < r.trade_volume_prev then
            ((r.trade_volume - r.trade_volume_prev) / r.trade_volume_prev) * 100
          else 0) ∧
    (∀ (t : Candle.CandleTicker) (yresp : Except String (List Candle.DayCandle))
        (names : String → Option String) (now : ℚ),
      (Candle.mkCandleData t yresp names now).volume_change_rate =
        if 0 < (Candle.mkCandleData t yresp names now).yesterday_volume then
          pyRound1
            ((((Candle.mkCandleData t yresp names now).today_volume : ℚ) -
                ((Candle.mkCandleData t yresp names now).yesterday_volume : ℚ)) /
              ((Candle.mkCandleData t yresp names now).yesterday_volume : ℚ) * 100)
        else 0) := by
  refine ⟨fun t => rfl, ?_, fun t yresp names now => rfl⟩
  intro coin t now r h
  rcases t with ⟨v1, v7, cp, fr⟩
  rcases v1 with _ | v1 <;> rcases v7 with _ | v7 <;> rcases cp with _ | cp <;>
    rcases fr with _ | fr <;> try exact Option.noConfusion h
  have h' := Option.some.inj h
  subst h'
  rfl

/-- The record the Bithumb normalizer builds from a fully parsed ticker with
1-day volume 3 and 7-day volume 7 (baseline 1). -/
def c1BithumbRec : Combined.VolumeRecord :=
  ⟨.bithumb, "KRW-BTC", "BTC", 3, 1, 100, 2, 200, 0⟩

/-- C1 witness: the Bithumb conjunct of `C1_rate_formula` applied at a
concrete fully parsed ticker. -/
theorem C1_rate_formula_witness :
    Combined.mkBithumbData "BTC" ⟨some 3, some 7, some 100, some 2⟩ 0
        = some c1BithumbRec ∧
    c1BithumbRec.volume_change_rate =
      if 0 < c1BithumbRec.trade_volume_prev then
        ((c1BithumbRec.trade_volume - c1BithumbRec.trade_volume_prev) /
          c1BithumbRec.trade_volume_prev) * 100
      else 0 :=
  ⟨by
    simp only [Combined.mkBithumbData, c1BithumbRec, Option.some.injEq,
      Combined.VolumeRecord.mk.injEq]
    norm_num
    rfl,
   C1_rate_formula.2.1 "BTC" ⟨some 3, some 7, some 100, some 2⟩ 0 c1BithumbRec
    (by
      simp only [Combined.mkBithumbData, c1BithumbRec, Option.some.injEq,
        Combined.VolumeRecord.mk.injEq]
      norm_num
      rfl)⟩

/-- C5: in both per-asset loops, a ticker whose normalization fails is dropped
alone while every other asset of the batch is still normalized and emitted.
Bithumb (`streamlit-app.py` 84-108): if `mkBithumbData` fails on one coin
(missing or malformed field), the batch output is the output on the
surrounding entries, and every successfully normalized non-`date` entry
appears in the output.  Candle version (`streamlit_app.py` 76-111): if the
per-ticker `try` body raises on one raw ticker (`parseCandleTicker _ = none`),
the batch output is the output on the surrounding entries, and every
well-formed raw ticker's record appears in the output. -/
theorem C5_bad_asset_skipped
    (d1 d2 : List (String × Combined.BithumbTicker)) (coin : String)
    (t : Combined.BithumbTicker) (st msg : String) (now : ℚ)
    (e1 e2 : List Candle.RawCandleTicker) (tc : Candle.RawCandleTicker)
    (ydata : String → Except String (List Candle.DayCandle))
    (market_names : String → Option String) (cnow : ℚ)
    (hfail : Combined.mkBithumbData coin t now = none)
    (hfailc : Candle.parseCandleTicker tc = none) :
    Combined.get_bithumb_volume_data (.ok ⟨st, msg, d1 ++ (coin, t) :: d2⟩) now
      = Combined.get_bithumb_volume_data (.ok ⟨st, msg, d1⟩) now
        ++ Combined.get_bithumb_volume_data (.ok ⟨st, msg, d2⟩) now ∧
    (∀ p ∈ d1 ++ (coin, t) :: d2, p.1 ≠ "date" →
      ∀ r : Combined.VolumeRecord, Combined.mkBithumbData p.1 p.2 now = some r →
        r ∈ Combined.get_bithumb_volume_data (.ok ⟨"0000", msg, d1 ++ (coin, t) :: d2⟩) now) ∧
    Candle.get_upbit_volume_data (.ok (e1 ++ tc :: e2)) ydata market_names cnow
      = Candle.get_upbit_volume_data (.ok e1) ydata market_names cnow
        ++ Candle.get_upbit_volume_data (.ok e2) ydata market_names cnow ∧
    (∀ t' ∈ e1 ++ tc :: e2, ∀ c : Candle.CandleTicker,
      Candle.parseCandleTicker t' = some c →
        Candle.mkCandleData c (ydata (c.market.getD "")) market_names cnow
          ∈ Candle.get_upbit_volume_data (.ok (e1 ++ tc :: e2)) ydata market_names cnow) := by
  refine ⟨?_, ?_, ?_, ?_⟩
  · by_cases hst : st = "0000"
    · subst hst
      by_cases hdate : coin = "date" <;>
        simp [Combined.get_bithumb_volume_data, List.filterMap_append,
          List.filterMap_cons, hdate, hfail]
    · simp [Combined.get_bithumb_volume_data, hst]
  · intro p hp hpdate r hr
    simp only [Combined.get_bithumb_volume_data, ne_eq, not_true_eq_false,
      if_false, List.mem_filterMap]
    refine ⟨p, hp, ?_⟩
    simp [hpdate, hr]
  · simp [Candle.get_upbit_volume_data, List.filterMap_append, List.filterMap_cons, hfailc]
  · intro t' ht' c hc
    simp only [Candle.get_upbit_volume_data, List.mem_filterMap]
    refine ⟨t', ht', ?_⟩
    rw [hc]
    rfl

/-- A Bithumb ticker that parses successfully. -/
def c5Good1 : Combined.BithumbTicker := ⟨some 2, some 7, some 10, some 1⟩

/-- A Bithumb ticker whose `volume_1day` field is missing or malformed. -/
def c5Bad : Combined.BithumbTicker := ⟨none, some 7, some 10, some 1⟩

/-- A second Bithumb ticker that parses successfully. -/
def c5Good2 : Combined.BithumbTicker := ⟨some 14, some 7, some 5, some 2⟩

/-- A raw candle ticker with a numeric 24h-volume value. -/
def c5CGood1 : Candle.RawCandleTicker := ⟨some "KRW-AAA", some (some 5), some 1, some 0⟩

/-- A raw candle ticker whose 24h-volume value is present but malformed, so
`int()` raises inside the per-ticker `try`. -/
def c5CBad : Candle.RawCandleTicker := ⟨some "KRW-BBB", some none, some 1, some 0⟩

/-- A raw candle ticker with the 24h-volume field absent (`.get` falls back
to 0, no failure). -/
def c5CGood2 : Candle.RawCandleTicker := ⟨some "KRW-CCC", none, some 1, some 0⟩

/-- C5 witness: with the bad `"ETH"` Bithumb ticker between two good ones and
the malformed `"KRW-BBB"` candle ticker between two well-formed ones, each
batch output is exactly the output on the surrounding good entries. -/
theorem C5_bad_asset_skipped_witness :
    Combined.mkBithumbData "ETH" c5Bad 0 = none ∧
    Candle.parseCandleTicker c5CBad = none ∧
    Combined.get_bithumb_volume_data
        (.ok ⟨"0000", "", [("BTC", c5Good1)] ++ ("ETH", c5Bad) :: [("XRP", c5Good2)]⟩) 0
      = Combined.get_bithumb_volume_data (.ok ⟨"0000", "", [("BTC", c5Good1)]⟩) 0
        ++ Combined.get_bithumb_volume_data (.ok ⟨"0000", "", [("XRP", c5Good2)]⟩) 0 ∧
    Candle.get_upbit_volume_data (.ok ([c5CGood1] ++ c5CBad :: [c5CGood2]))
        (fun _ => .ok [⟨1⟩]) (fun _ => none) 0
      = Candle.get_upbit_volume_data (.ok [c5CGood1]) (fun _ => .ok [⟨1⟩]) (fun _ => none) 0
        ++ Candle.get_upbit_volume_data (.ok [c5CGood2])
            (fun _ => .ok [⟨1⟩]) (fun _ => none) 0 := by
  have h := C5_bad_asset_skipped [("BTC", c5Good1)] [("XRP", c5Good2)] "ETH" c5Bad
    "0000" "" 0 [c5CGood1] [c5CGood2] c5CBad (fun _ => .ok [⟨1⟩]) (fun _ => none) 0
    rfl rfl
  exact ⟨rfl, rfl, h.1, h.2.2.1⟩

/-- C6: under the positive-first sort key, the returned sequence is a
permutation of the input in which every record with a positive change rate
precedes every record with a non-positive one, and any two records on the
same side of zero are in descending order of absolute change rate. -/
theorem C6_signed_sort_positive_first (xs : List Candle.CandleRecord) :
    (Candle.sorted_data .posFirst xs).Perm xs ∧
    (Candle.sorted_data .posFirst xs).Pairwise (fun a b =>
      (0 < b.volume_change_rate → 0 < a.volume_change_rate) ∧
      ((0 < a.volume_change_rate ↔ 0 < b.volume_change_rate) →
        |b.volume_change_rate| ≤ |a.volume_change_rate|)) := by
  constructor
  · exact List.mergeSort_perm xs Candle.signedLe
  · have hs := List.sorted_mergeSort signedLe_trans signedLe_total xs
    refine hs.imp ?_
    intro a b hab
    simp only [Candle.signedLe, decide_eq_true_eq] at hab
    constructor
    · intro hb
      by_contra ha
      have hka : Candle.signedKeyFst a = 1 := by simp [Candle.signedKeyFst, ha]
      have hkb : Candle.signedKeyFst b = -1 := by simp [Candle.signedKeyFst, hb]
      rcases hab with h | ⟨h, _⟩
      · rw [hka, hkb] at h; omega
      · rw [hka, hkb] at h; omega
    · intro hiff
      have hk : Candle.signedKeyFst a = Candle.signedKeyFst b := by
        by_cases h0 : 0 < a.volume_change_rate
        · simp [Candle.signedKeyFst, h0, hiff.mp h0]
        · have hb0 : ¬ 0 < b.volume_change_rate := fun hb => h0 (hiff.mpr hb)
          simp [Candle.signedKeyFst, h0, hb0]
      rcases hab with h | ⟨_, h⟩
      · rw [hk] at h
        exact absurd h (lt_irrefl _)
      · exact neg_le_neg_iff.mp h

/-- Every record the Bithumb normalizer emits carries the market id
`"KRW-" ++ coin`. -/
theorem mkBithumbData_market (coin : String) (t : Combined.BithumbTicker) (now : ℚ)
    (r : Combined.VolumeRecord) (h : Combined.mkBithumbData coin t now = some r) :
    r.market = "KRW-" ++ coin := by
  rcases t with ⟨v1, v7, cp, fr⟩
  rcases v1 with _ | v1 <;> rcases v7 with _ | v7 <;> rcases cp with _ | cp <;>
    rcases fr with _ | fr <;> try exact Option.noConfusion h
  have h' := Option.some.inj h
  subst h'
  rfl

/-- Appending any coin symbol to `"KRW-"` yields a string that starts with
`"KRW-"`. -/
theorem pyStartswith_krw_append (c : String) :
    pyStartswith ("KRW-" ++ c) "KRW-" = true := by
  simp [pyStartswith, String.data_append]

/-- C9: every market id kept by `get_upbit_market_codes` starts with `"KRW-"`;
every Bithumb record's market id starts with `"KRW-"` (it is built as
`"KRW-" + coin`); and provided the ticker endpoint echoes only the requested
`KRW-` universe (hypothesis `hok`), every Upbit record's market id starts with
`"KRW-"` as well. -/
theorem C9_krw_markets (mresp : Except String (List MarketInfo))
    (bresp : Except String Combined.BithumbResp) (now : ℚ)
    (tickers : List Combined.UpbitTicker)
    (hok : ∀ t ∈ tickers, pyStartswith t.market "KRW-" = true) :
    (∀ m ∈ Combined.get_upbit_market_codes mresp, pyStartswith m "KRW-" = true) ∧
    (∀ r ∈ Combined.get_bithumb_volume_data bresp now,
        pyStartswith r.market "KRW-" = true) ∧
    (∀ r ∈ Combined.get_upbit_volume_data (.ok tickers),
        pyStartswith r.market "KRW-" = true) := by
  refine ⟨?_, ?_, ?_⟩
  · intro m hm
    rcases mresp with e | ms
    · simp [Combined.get_upbit_market_codes] at hm
    · simp only [Combined.get_upbit_market_codes, List.mem_map, List.mem_filter] at hm
      obtain ⟨mi, ⟨_, hpi⟩, rfl⟩ := hm
      exact hpi
  · intro r hr
    rcases bresp with e | d
    · simp [Combined.get_bithumb_volume_data] at hr
    · simp only [Combined.get_bithumb_volume_data] at hr
      split at hr
      · simp at hr
      · simp only [List.mem_filterMap] at hr
        obtain ⟨p, _, hsome⟩ := hr
        split at hsome
        · exact Option.noConfusion hsome
        · rw [mkBithumbData_market p.1 p.2 now r hsome]
          exact pyStartswith_krw_append p.1
  · intro r hr
    simp only [Combined.get_upbit_volume_data, List.mem_map] at hr
    obtain ⟨t, ht, rfl⟩ := hr
    exact hok t ht

/-- C9 witness: the market-universe conjunct applied at a concrete market-list
response containing one `KRW-` and one non-`KRW-` market. -/
theorem C9_krw_markets_witness : pyStartswith "KRW-BTC" "KRW-" = true :=
  (C9_krw_markets (.ok [⟨"KRW-BTC", none⟩, ⟨"BTC-ETH", none⟩])
      (.ok ⟨"0000", "", []⟩) 0 [⟨"KRW-BTC", 1, 1, 1, 0, 0⟩]
      (by decide)).1 "KRW-BTC" (by decide)

/-- Python's `int()` truncates toward zero: on non-negative rationals it is
the floor, on negative ones the ceiling. -/
theorem pyInt_trunc (q : ℚ) : pyInt q = if 0 ≤ q then ⌊q⌋ else ⌈q⌉ := by
  unfold pyInt
  split_ifs with h
  · rw [Int.tdiv_eq_ediv (Rat.num_nonneg.mpr h) (Int.natCast_nonneg q.den)]
    exact Rat.floor_def.symm
  · have hnum : ¬ 0 ≤ q.num := fun hn => h (Rat.num_nonneg.mp hn)
    have h1 : Int.tdiv q.num ↑q.den = -Int.tdiv (-q.num) ↑q.den := by
      rw [Int.neg_tdiv, neg_neg]
    rw [h1, Int.tdiv_eq_ediv (by omega : (0:ℤ) ≤ -q.num) (Int.natCast_nonneg q.den)]
    have h2 : ⌊-q⌋ = -q.num / ↑q.den := by
      rw [Rat.floor_def, Rat.neg_num, Rat.neg_den]
    rw [← h2, Int.floor_neg, neg_neg]

/-- C10: in the candle version both volumes are truncated toward zero
(`pyInt`, which is the floor on non-negative and the ceiling on negative
inputs) before the change rate is computed, and the rate is the rounded-to-one-
decimal formula on the truncated values; consequently two tickers whose raw
current and baseline volumes have equal integer parts produce identical stored
`today_volume`, `yesterday_volume` and `volume_change_rate`. -/
theorem C10_truncated_volumes
    (t1 t2 : Candle.CandleTicker) (y1 y2 : Except String (List Candle.DayCandle))
    (names1 names2 : String → Option String) (now1 now2 : ℚ)
    (htoday : pyInt (t1.acc_trade_volume_24h.getD 0)
        = pyInt (t2.acc_trade_volume_24h.getD 0))
    (hyest : pyInt (Candle.get_yesterday_volume y1)
        = pyInt (Candle.get_yesterday_volume y2)) :
    (∀ q : ℚ, pyInt q = if 0 ≤ q then ⌊q⌋ else ⌈q⌉) ∧
    (Candle.mkCandleData t1 y1 names1 now1).today_volume
        = pyInt (t1.acc_trade_volume_24h.getD 0) ∧
    (Candle.mkCandleData t1 y1 names1 now1).yesterday_volume
        = pyInt (Candle.get_yesterday_volume y1) ∧
    (Candle.mkCandleData t1 y1 names1 now1).volume_change_rate
        = (if 0 < pyInt (Candle.get_yesterday_volume y1) then
            pyRound1 (((pyInt (t1.acc_trade_volume_24h.getD 0) : ℚ) -
                (pyInt (Candle.get_yesterday_volume y1) : ℚ)) /
              (pyInt (Candle.get_yesterday_volume y1) : ℚ) * 100)
          else 0) ∧
    (Candle.mkCandleData t1 y1 names1 now1).today_volume
        = (Candle.mkCandleData t2 y2 names2 now2).today_volume ∧
    (Candle.mkCandleData t1 y1 names1 now1).yesterday_volume
        = (Candle.mkCandleData t2 y2 names2 now2).yesterday_volume ∧
    (Candle.mkCandleData t1 y1 names1 now1).volume_change_rate
        = (Candle.mkCandleData t2 y2 names2 now2).volume_change_rate := by
  refine ⟨pyInt_trunc, rfl, rfl, rfl, htoday, hyest, ?_⟩
  simp only [Candle.mkCandleData]
  rw [htoday, hyest]

/-- C10 witness: two tickers with raw volumes 5/2 vs 9/4 (both truncating to 2)
and baselines 7/3 vs 5/2 (both truncating to 2) store the same change rate. -/
theorem C10_truncated_volumes_witness :
    pyInt (((some ((5:ℚ)/2) : Option ℚ)).getD 0)
        = pyInt (((some ((9:ℚ)/4) : Option ℚ)).getD 0) ∧
    (Candle.mkCandleData ⟨some "KRW-X", some ((5:ℚ)/2), some 1, some 0⟩
        (.ok [⟨(7:ℚ)/3⟩]) (fun _ => none) 0).volume_change_rate
      = (Candle.mkCandleData ⟨some "KRW-X", some ((9:ℚ)/4), some 1, some 0⟩
          (.ok [⟨(5:ℚ)/2⟩]) (fun _ => none) 0).volume_change_rate := by
  have h1 : pyInt (((some ((5:ℚ)/2) : Option ℚ)).getD 0)
      = pyInt (((some ((9:ℚ)/4) : Option ℚ)).getD 0) := by
    simp only [Option.getD_some, pyInt]
    norm_num
    decide
  have h2 : pyInt (Candle.get_yesterday_volume (.ok [⟨(7:ℚ)/3⟩]))
      = pyInt (Candle.get_yesterday_volume (.ok [⟨(5:ℚ)/2⟩])) := by
    simp only [Candle.get_yesterday_volume, pyInt]
    norm_num
    decide
  exact ⟨h1,
    (C10_truncated_volumes ⟨some "KRW-X", some ((5:ℚ)/2), some 1, some 0⟩
      ⟨some "KRW-X", some ((9:ℚ)/4), some 1, some 0⟩
      (.ok [⟨(7:ℚ)/3⟩]) (.ok [⟨(5:ℚ)/2⟩]) (fun _ => none) (fun _ => none) 0 0
      h1 h2).2.2.2.2.2.2⟩

/-- A minimal candle record for filter/sort scenarios: market id, today's
volume and change rate; every other field is fixed. -/
def c2Rec (m : String) (tv : ℤ) (rate : ℚ) : Candle.CandleRecord :=
  ⟨.upbit, m, m, tv, 1, 1, 0, rate, 0⟩

/-- A record with tiny volume but by far the largest absolute change rate. -/
def c2Big : Candle.CandleRecord := c2Rec "KRW-BIG" 1 999

/-- Ten records with large volumes and small rates, followed by `c2Big`. -/
def c2List : List Candle.CandleRecord :=
  [c2Rec "KRW-A0" 1000 1, c2Rec "KRW-A1" 999 2, c2Rec "KRW-A2" 998 3,
   c2Rec "KRW-A3" 997 4, c2Rec "KRW-A4" 996 5, c2Rec "KRW-A5" 995 6,
   c2Rec "KRW-A6" 994 7, c2Rec "KRW-A7" 993 8, c2Rec "KRW-A8" 992 9,
   c2Rec "KRW-A9" 991 10, c2Big]

unseal List.merge List.mergeSort in
/-- C2 counterexample: under the `today volume` sort key the chart selection is
the first ten of the volume-sorted list, so the record with the largest
absolute change rate (`c2Big`, rate 999 but volume 1) is excluded from the
chart even though it is in the filtered set, and every charted record has a
strictly smaller absolute change rate. -/
theorem C2_counterexample :
    c2Big ∈ Candle.filtered_data ⟨0, 0⟩ c2List ∧
    c2Big ∉ Candle.top10 .todayVol (Candle.filtered_data ⟨0, 0⟩ c2List) ∧
    (Candle.top10 .todayVol (Candle.filtered_data ⟨0, 0⟩ c2List)).all
      (fun r => decide (|r.volume_change_rate| < |c2Big.volume_change_rate|)) = true := by
  decide

/-- C2 as amended: for every filtered set and sort key, the chart selection is
the first ten records of the table order (the active sort key's order),
re-sorted by absolute change rate descending for presentation; it equals the
ten records of largest absolute change rate when the active sort key is the
absolute change rate — and always in the two-exchange version, whose data is
pre-sorted by absolute change rate — but not under the other sort keys. -/
theorem C2_top10_spec (xs : List Candle.CandleRecord) (k : Candle.SortKey) :
    (Candle.top10 k xs).Perm ((Candle.sorted_data k xs).take 10) ∧
    (Candle.top10 k xs).Pairwise
      (fun a b => |b.volume_change_rate| ≤ |a.volume_change_rate|) ∧
    (k = Candle.SortKey.absRate →
      ∀ a ∈ Candle.top10 k xs, ∀ b ∈ (Candle.sorted_data k xs).drop 10,
        |b.volume_change_rate| ≤ |a.volume_change_rate|) ∧
    (∀ (f : Combined.FilterSpec) (uresp : Except String (List Combined.UpbitTicker))
        (bresp : Except String Combined.BithumbResp) (now : ℚ),
      ∀ a ∈ Combined.top10 f (Combined.get_combined_volume_data uresp bresp now),
        ∀ b ∈ (Combined.filtered_data f
            (Combined.get_combined_volume_data uresp bresp now)).drop 10,
          |b.volume_change_rate| ≤ |a.volume_change_rate|) := by
  refine ⟨List.mergeSort_perm _ _, ?_, ?_, ?_⟩
  · have hs := List.sorted_mergeSort cAbsDescLe_trans cAbsDescLe_total
      ((Candle.sorted_data k xs).take 10)
    exact hs.imp fun {a b} h => by simpa [Candle.absDescLe] using h
  · rintro rfl a ha b hb
    have ha' : a ∈ (Candle.sorted_data .absRate xs).take 10 := by
      simpa only [Candle.top10, List.mem_mergeSort] using ha
    have hsorted : (Candle.sorted_data .absRate xs).Pairwise
        (fun x y => Candle.absDescLe x y = true) := by
      simp only [Candle.sorted_data]
      exact List.sorted_mergeSort cAbsDescLe_trans cAbsDescLe_total xs
    rw [← List.take_append_drop 10 (Candle.sorted_data .absRate xs)] at hsorted
    obtain ⟨-, -, hcross⟩ := List.pairwise_append.mp hsorted
    simpa [Candle.absDescLe] using hcross a ha' b hb
  · intro f uresp bresp now a ha b hb
    have hsorted : (Combined.get_combined_volume_data uresp bresp now).Pairwise
        (fun x y => Combined.absDescLe x y = true) := by
      simp only [Combined.get_combined_volume_data]
      exact List.sorted_mergeSort absDescLe_trans absDescLe_total _
    have hfil : (Combined.filtered_data f
        (Combined.get_combined_volume_data uresp bresp now)).Pairwise
        (fun x y => Combined.absDescLe x y = true) :=
      hsorted.filter _
    rw [← List.take_append_drop 10 (Combined.filtered_data f
      (Combined.get_combined_volume_data uresp bresp now))] at hfil
    obtain ⟨-, -, hcross⟩ := List.pairwise_append.mp hfil
    have ha' : a ∈ (Combined.filtered_data f
        (Combined.get_combined_volume_data uresp bresp now)).take 10 := ha
    simpa [Combined.absDescLe] using hcross a ha' b hb

unseal List.merge List.mergeSort in
/-- C2 witness: the absolute-rate conjunct of `C2_top10_spec` applied at
`c2List` — the charted `c2Big` dominates the excluded eleventh record. -/
theorem C2_top10_spec_witness :
    |(c2Rec "KRW-A0" 1000 1).volume_change_rate| ≤ |c2Big.volume_change_rate| :=
  (C2_top10_spec c2List .absRate).2.2.1 rfl c2Big (by decide)
    (c2Rec "KRW-A0" 1000 1) (by decide)

/-- A candle record with a positive change rate of small magnitude. -/
def c6Pos : Candle.CandleRecord := ⟨.upbit, "KRW-P", "P", 5, 1, 1, 0, 10, 0⟩

/-- A candle record with a negative change rate of large magnitude. -/
def c6Neg : Candle.CandleRecord := ⟨.upbit, "KRW-N", "N", 5, 1, 1, 0, -50, 0⟩

/-- C6 instantiated at a two-record list where the negative record has the
larger absolute rate. -/
theorem C6_signed_sort_positive_first_witness :
    (Candle.sorted_data .posFirst [c6Neg, c6Pos]).Perm [c6Neg, c6Pos] ∧
    (Candle.sorted_data .posFirst [c6Neg, c6Pos]).Pairwise (fun a b =>
      (0 < b.volume_change_rate → 0 < a.volume_change_rate) ∧
      ((0 < a.volume_change_rate ↔ 0 < b.volume_change_rate) →
        |b.volume_change_rate| ≤ |a.volume_change_rate|)) :=
  C6_signed_sort_positive_first [c6Neg, c6Pos]

end CoinTracker
